import Mathlib

/-!
# nginx-simple-sso: the authentication gateway (`src/auth/main.go`)

A shallow embedding of the token scheme (`inMemoryAuth.Authenticate`,
`inMemoryAuth.Login`, `inMemoryAuth.GetUser`) and of the request handler
(`getCredentials`, `writeLoginPage`, `handler`), followed by the properties
proved about them.

Modelling conventions.

* A Go `string` is a Lean `String`; `[]byte(s)` is its UTF-8 encoding.
* A Go `int` is an `Int`, a `uint32`/`uint64` is a `Nat` reduced modulo the
  word size where the Go code can wrap.
* A Go `(value, error)` result is a pair whose second component is
  `Option Error`, `none` standing for `nil`; the value returned next to a
  non-nil error is kept, because `handler` goes on to use it on one path.
* A Go `map[int]User` is the list of its entries in the order in which the
  `range` loop of the call at hand visits them. Go leaves that order
  unspecified, so a statement about a map is a statement about every list.
* `log.Fatal*` prints and then calls `os.Exit(1)`: the handler stops at once
  and the process is gone. Plain logging (`log.Print*`) is not recorded.
-/

namespace Auth

/-! ## Library functions used by the program -/

/-- The values of Go type `error` that occur in the program. -/
inductive Error where
  /-- The package variable `ErrInvalidCredentials`. -/
  | ErrInvalidCredentials
  /-- The value `errors.New("user not found")` of `GetUser`. -/
  | userNotFound
  /-- The error `strconv.ErrSyntax` wrapped by `strconv.ParseUint`. -/
  | ErrSyntax
  /-- The error `strconv.ErrRange` wrapped by `strconv.ParseUint`. -/
  | ErrRange
  /-- The value `http.ErrNoCookie`. -/
  | ErrNoCookie
  /-- Any other error, with its message. -/
  | other (msg : String)
  deriving DecidableEq, Repr

/-- UTF-8 encoding of one code point, as Go stores it in a `string`. -/
def utf8EncodeRune (c : Char) : List Nat :=
  let n := c.toNat
  if n < 0x80 then [n]
  else if n < 0x800 then [0xC0 + n / 64, 0x80 + n % 64]
  else if n < 0x10000 then [0xE0 + n / 4096, 0x80 + n / 64 % 64, 0x80 + n % 64]
  else [0xF0 + n / 262144, 0x80 + n / 4096 % 64, 0x80 + n / 64 % 64, 0x80 + n % 64]

/-- The conversion `[]byte(s)`. -/
def bytes (s : String) : List Nat :=
  s.data.flatMap utf8EncodeRune

namespace adler32

/-- The constant `adler32.mod`: the largest prime below 65536. -/
def mod : Nat := 65521

/-- One byte of `hash/adler32`'s `update`, on the pair `(s1, s2)`. The library
    postpones the reduction modulo `mod` over blocks short enough that the
    32-bit sums cannot wrap, which gives the same values. -/
def step (d : Nat × Nat) (b : Nat) : Nat × Nat :=
  let s1 := (d.1 + b) % mod
  (s1, (d.2 + s1) % mod)

/-- The state of `h := adler32.New()` after `h.Write(p)`. -/
def update (p : List Nat) : Nat × Nat :=
  p.foldl step (1, 0)

/-- The result of `h.Sum32()` for `h := adler32.New(); h.Write(p)`: the `uint32`
    value `s2<<16 | s1`. -/
def Sum32 (p : List Nat) : Nat :=
  ((update p).2 <<< 16 ||| (update p).1) % 2 ^ 32

end adler32

namespace strconv

/-- The loop of `strconv.ParseUint(s, 10, 32)` over the remaining characters,
    `n` being the value read so far. A character other than `0`..`9` is a
    syntax error (letters are digits of value 10 or more, which base 10
    refuses; `_` is read only when the base is 0; a byte of a multi-byte
    character is none of these). `cutoff` is `maxUint64/10 + 1` and `maxVal`
    is `1<<32 - 1`; a range error returns `maxVal`. -/
def parseLoop : List Char → Nat → Nat × Option Error
  | [], n => (n, none)
  | c :: cs, n =>
    if '0' ≤ c ∧ c ≤ '9' then
      if n ≥ 1844674407370955162 then (4294967295, some Error.ErrRange)
      else if n * 10 + (c.toNat - '0'.toNat) > 4294967295 then
        (4294967295, some Error.ErrRange)
      else parseLoop cs (n * 10 + (c.toNat - '0'.toNat))
    else (0, some Error.ErrSyntax)

/-- The call `strconv.ParseUint(s, 10, 32)`. -/
def ParseUint (s : String) : Nat × Option Error :=
  if s = "" then (0, some Error.ErrSyntax) else parseLoop s.data 0

end strconv

/-! ## The token scheme -/

/-- The value `ErrInvalidCredentials`. -/
def ErrInvalidCredentials : Error := Error.ErrInvalidCredentials

/-- The struct `User`. -/
structure User where
  ID : Int
  Username : String
  Email : String
  password : String
  deriving DecidableEq, Repr

/-- The struct `Credentials`. -/
structure Credentials where
  username : String
  password : String
  deriving DecidableEq, Repr

/-- The struct `inMemoryAuth`; `users` lists the entries of the map in the
    order of the `range` loop. -/
structure inMemoryAuth where
  users : List (Int × User)
  deriving DecidableEq, Repr

open inMemoryAuth

/-- The string `fmt.Sprintf("%d:%s:%s", id, user.Username, user.password)`. -/
def userKey (id : Int) (user : User) : String :=
  toString id ++ ":" ++ user.Username ++ ":" ++ user.password

/-- The checksum both `Authenticate` and `Login` compute for a map entry:
    `h := adler32.New(); h.Write([]byte(fmt.Sprintf(...))); h.Sum32()`. -/
def userSum (id : Int) (user : User) : Nat :=
  adler32.Sum32 (bytes (userKey id user))

/-- The `range` loop of `Authenticate` over the remaining entries, `t` being
    the parsed token. -/
def authLoop (t : Nat) : List (Int × User) → Int × Option Error
  | [] => (0, some ErrInvalidCredentials)
  | (id, user) :: rest =>
    if t % 2 ^ 32 = userSum id user then (id, none) else authLoop t rest

/-- The method `inMemoryAuth.Authenticate`. -/
def inMemoryAuth.Authenticate (a : inMemoryAuth) (token : String) : Int × Option Error :=
  match strconv.ParseUint token with
  | (t, none) => authLoop t a.users
  | (_, some _) => (0, some ErrInvalidCredentials)

/-- The method `inMemoryAuth.GetUser`. -/
def inMemoryAuth.GetUser (a : inMemoryAuth) (id : Int) : User × Option Error :=
  match a.users.lookup id with
  | some user => (user, none)
  | none => (⟨0, "", "", ""⟩, some Error.userNotFound)

/-- The `range` loop of `Login` over the remaining entries. -/
def loginLoop (cred : Credentials) : List (Int × User) → String × Option Error
  | [] => ("", some ErrInvalidCredentials)
  | (id, user) :: rest =>
    if user.Username = cred.username then
      if user.password = cred.password then (toString (userSum id user), none)
      else ("", some ErrInvalidCredentials)
    else loginLoop cred rest

/-- The method `inMemoryAuth.Login`. -/
def inMemoryAuth.Login (a : inMemoryAuth) (cred : Credentials) : String × Option Error :=
  loginLoop cred a.users

/-- The store that `main` installs. -/
def startup : inMemoryAuth :=
  ⟨[(1, ⟨1, "carlos", "carlos@me.com", "12345"⟩),
    (2, ⟨2, "octocat", "octocat@me.com", "ABCDE"⟩)]⟩

/-! ## The HTTP values the handler works on -/

/-- The constant `loginHTML`. -/
def loginHTML : String :=
  "\n<html>\n\t<head>\n\t\t<title>Login</title>\n\t</head>\n\t<body>\n" ++
  "\t\t<form action=\"/login\" method=\"post\">\n" ++
  "\t\t\t<input type=\"text\" placeholder=\"Enter Username\" name=\"username\" required/>\n" ++
  "\t\t\t<input type=\"password\" placeholder=\"Enter Password\" name=\"password\" required/>\n" ++
  "\t\t\t<button type=\"submit\">Login</button>\t\n" ++
  "\t\t</form>\n\t</body>\n</html>\n"

/-- The constant `cookieName`. -/
def cookieName : String := "nginx-auth"

/-- The constant `headerName`. -/
def headerName : String := "X-Auth-Token"

/-- The constant `userHeaderName`. -/
def userHeaderName : String := "X-Auth-User-ID"

/-- The fields of `http.Cookie` that the program reads or sets; the others
    keep their zero value throughout. -/
structure Cookie where
  Name : String
  Value : String
  Domain : String
  HttpOnly : Bool
  MaxAge : Int
  deriving DecidableEq, Repr

/-- The fields of `url.URL` that the handler reads. -/
structure URL where
  Path : String
  Host : String
  deriving DecidableEq, Repr

/-- The parts of `*http.Request` that the handler reads. `Cookies` lists the
    name and value of the cookies the request carries, in order.
    `ParseFormErr` is the error that `r.ParseForm()` returns and `Form` the
    map `r.Form` it leaves behind. -/
structure Request where
  Method : String
  URL : URL
  Header : List (String × List String)
  Cookies : List (String × String)
  ParseFormErr : Option Error
  Form : List (String × List String)
  deriving DecidableEq, Repr

/-- The expression `r.Form[key]`; a missing key gives the `nil` slice, which
    is not told apart from an empty one. -/
def Request.FormValues (r : Request) (key : String) : List String :=
  (r.Form.lookup key).getD []

/-- The method `r.Cookie(name)`: the first cookie of that name, or
    `http.ErrNoCookie`. -/
def Request.Cookie (r : Request) (name : String) : Cookie × Option Error :=
  match r.Cookies.lookup name with
  | some value => (⟨name, value, "", false, 0⟩, none)
  | none => (⟨"", "", "", false, 0⟩, some Error.ErrNoCookie)

/-- What the handler has done to its `http.ResponseWriter`: the map
    `w.Header()`, the cookies handed to `http.SetCookie`, the status code
    (`none` until `WriteHeader` or the first `Write`), the bytes written, and
    whether `Write` reports an error (a connection that is gone). -/
structure ResponseWriter where
  Header : List (String × List String)
  Cookies : List Cookie
  Code : Option Nat
  Body : String
  broken : Bool
  deriving DecidableEq, Repr

/-- A writer nothing has been written to, on a working connection. -/
def newRecorder : ResponseWriter := ⟨[], [], none, "", false⟩

/-- The assignment `w.Header()[key] = values`. -/
def ResponseWriter.setHeader (w : ResponseWriter) (key : String)
    (values : List String) : ResponseWriter :=
  { w with Header := w.Header.filter (fun e => e.1 ≠ key) ++ [(key, values)] }

/-- The call `http.SetCookie(w, cookie)` for a cookie with a valid name. -/
def ResponseWriter.SetCookie (w : ResponseWriter) (cookie : Cookie) : ResponseWriter :=
  { w with Cookies := w.Cookies ++ [cookie] }

/-- The method `w.WriteHeader(code)`: only the first status code counts. -/
def ResponseWriter.WriteHeader (w : ResponseWriter) (code : Nat) : ResponseWriter :=
  match w.Code with
  | some _ => w
  | none => { w with Code := some code }

/-- The method `w.Write(b)`: status 200 unless one was written before. -/
def ResponseWriter.Write (w : ResponseWriter) (b : String) :
    ResponseWriter × Option Error :=
  let w1 := w.WriteHeader 200
  if w1.broken then (w1, some (Error.other "write failed"))
  else ({ w1 with Body := w1.Body ++ b }, none)

namespace json

/-- A hexadecimal digit, lower case. -/
def hex (n : Nat) : Char :=
  "0123456789abcdef".data.getD n '0'

/-- How `encoding/json` writes one character of a string: the quote and the
    backslash escaped, newline, carriage return and tab in short form, the
    other control characters and `<`, `>`, `&` as `\u00xx`, the two Unicode
    line separators U+2028 and U+2029 as their six-character escapes. (Go 1.22
    and later write backspace and form feed in short form as well.) -/
def escapeRune (c : Char) : String :=
  if c = '"' then "\\\""
  else if c = '\\' then "\\\\"
  else if c = '\n' then "\\n"
  else if c = '\r' then "\\r"
  else if c = '\t' then "\\t"
  else if c.toNat < 0x20 ∨ c = '<' ∨ c = '>' ∨ c = '&' then
    "\\u00" ++ String.mk [hex (c.toNat / 16), hex (c.toNat % 16)]
  else if c.toNat = 0x2028 then "\\u2028"
  else if c.toNat = 0x2029 then "\\u2029"
  else String.mk [c]

/-- A string as a JSON string literal. -/
def quote (s : String) : String :=
  "\"" ++ String.join (s.data.map escapeRune) ++ "\""

/-- The JSON object with the members `ID`, `Username` and `Email`. -/
def object (id : Int) (username email : String) : String :=
  "\x7b\"ID\":" ++ toString id ++ ",\"Username\":" ++ quote username ++
    ",\"Email\":" ++ quote email ++ "\x7d"

/-- The call `json.Marshal(user)` for a `User`: its exported fields in the
    order of declaration; the field `password` is unexported and is skipped.
    The call cannot fail for this type. -/
def Marshal (user : User) : String × Option Error :=
  (object user.ID user.Username user.Email, none)

end json

/-! ## The handler -/

/-- A call on the package variable `auth`. -/
inductive Call where
  | Authenticate (token : String)
  | GetUser (id : Int)
  | Login (cred : Credentials)
  deriving DecidableEq, Repr

/-- How a run of `handler` ends: the state of the response writer, the calls
    made on `auth` in order, and whether `log.Fatal*` ended the process. -/
structure Outcome where
  w : ResponseWriter
  calls : List Call
  exited : Bool
  deriving DecidableEq, Repr

/-- The function `writeLoginPage`; the flag tells whether `log.Fatalf` was
    reached. -/
def writeLoginPage (w : ResponseWriter) : ResponseWriter × Bool :=
  let w1 := w.setHeader "Content-Type" ["text/html"]
  match w1.Write loginHTML with
  | (w2, some _) => (w2, true)
  | (w2, none) => (w2, false)

/-- The function `getCredentials`; `none` stands for the process ended by
    `log.Fatal*`. Both error branches call `log.Fatal*` before their `return`,
    so the function never returns an error. -/
def getCredentials (r : Request) : Option (Credentials × Option Error) :=
  match r.ParseFormErr with
  | some _ => none
  | none =>
    if r.FormValues "username" = [] ∨ r.FormValues "password" = [] ∨
        (r.FormValues "username").length ≠ 1 ∨ (r.FormValues "password").length ≠ 1 then
      none
    else
      some (⟨(r.FormValues "username").headD "", (r.FormValues "password").headD ""⟩, none)

/-- The tail shared by the failure branches: `w.WriteHeader(401)` followed by
    the write of `msg`, with `log.Fatalf` when the write fails. -/
def unauthorized (w : ResponseWriter) (msg : String) : ResponseWriter × Bool :=
  match (w.WriteHeader 401).Write msg with
  | (w1, some _) => (w1, true)
  | (w1, none) => (w1, false)

/-- The `/login` case of `handler`. -/
def handleLogin (a : inMemoryAuth) (w : ResponseWriter) (r : Request) : Outcome :=
  if r.Method = "GET" then
    ⟨(writeLoginPage w).1, [], (writeLoginPage w).2⟩
  else
    match getCredentials r with
    | none => ⟨w, [], true⟩
    | some (_, some _) =>
      ⟨(unauthorized w "Invalid credentials\n").1, [],
        (unauthorized w "Invalid credentials\n").2⟩
    | some (creds, none) =>
      match Login a creds with
      | (_, some _) =>
        ⟨(unauthorized w "Invalid credentials\n").1, [Call.Login creds],
          (unauthorized w "Invalid credentials\n").2⟩
      | (token, none) =>
        ⟨((w.SetCookie ⟨cookieName, token, r.URL.Host, true, 20 * 60⟩).WriteHeader 200),
          [Call.Login creds], false⟩

/-- The `/logout` case of `handler`. -/
def handleLogout (w : ResponseWriter) (r : Request) : Outcome :=
  match r.Cookie cookieName with
  | (_, some Error.ErrNoCookie) => ⟨w.WriteHeader 200, [], false⟩
  | (_, some _) => ⟨w, [], true⟩
  | (cookie, none) =>
    ⟨(w.SetCookie { cookie with Value := "--", MaxAge := -1 }).WriteHeader 200, [], false⟩

/-- The `/auth` case of `handler`. -/
def handleAuth (a : inMemoryAuth) (w : ResponseWriter) (r : Request) : Outcome :=
  match r.Header.lookup headerName with
  | none => ⟨w.WriteHeader 401, [], false⟩
  | some token =>
    if token.length ≠ 1 then ⟨w.WriteHeader 401, [], false⟩
    else
      match Authenticate a (token.headD "") with
      | (_, some _) =>
        ⟨(unauthorized w "Unauthorized request\n").1, [Call.Authenticate (token.headD "")],
          (unauthorized w "Unauthorized request\n").2⟩
      | (userID, none) =>
        ⟨(w.setHeader userHeaderName [toString userID]).WriteHeader 200,
          [Call.Authenticate (token.headD "")], false⟩

/-- The part of the `/me` case that follows the call of `Authenticate`; the
    branch for its error does not return, so this part runs in either case,
    with the `userID` that call returned. -/
def meLookup (a : inMemoryAuth) (w : ResponseWriter) (calls : List Call)
    (userID : Int) : Outcome :=
  match GetUser a userID with
  | (_, some _) => ⟨w, calls ++ [Call.GetUser userID], true⟩
  | (user, none) =>
    match json.Marshal user with
    | (_, some _) =>
      ⟨w.setHeader "Content-Type" ["application/json"], calls ++ [Call.GetUser userID], true⟩
    | (content, none) =>
      match (w.setHeader "Content-Type" ["application/json"]).Write content with
      | (w1, some _) => ⟨w1, calls ++ [Call.GetUser userID], true⟩
      | (w1, none) => ⟨w1, calls ++ [Call.GetUser userID], false⟩

/-- The `/me` case of `handler`. -/
def handleMe (a : inMemoryAuth) (w : ResponseWriter) (r : Request) : Outcome :=
  match r.Cookie cookieName with
  | (_, some Error.ErrNoCookie) => ⟨w.WriteHeader 401, [], false⟩
  | (_, some _) => ⟨w, [], true⟩
  | (cookie, none) =>
    match Authenticate a cookie.Value with
    | (userID, some _) =>
      match unauthorized w "Unauthorized request\n" with
      | (w1, true) => ⟨w1, [Call.Authenticate cookie.Value], true⟩
      | (w1, false) => meLookup a w1 [Call.Authenticate cookie.Value] userID
    | (userID, none) => meLookup a w [Call.Authenticate cookie.Value] userID

/-- The function `handler`, with the store held by the package variable
    `auth` as an argument. A path that matches no case leaves the writer as
    it was. -/
def handler (a : inMemoryAuth) (w : ResponseWriter) (r : Request) : Outcome :=
  if r.URL.Path = "/login" then handleLogin a w r
  else if r.URL.Path = "/logout" then handleLogout w r
  else if r.URL.Path = "/auth" then handleAuth a w r
  else if r.URL.Path = "/me" then handleMe a w r
  else ⟨w, [], false⟩

/-! ## The acceptance condition in the words of the specification -/

namespace Spec

/-- A non-empty string of ASCII decimal digits: no sign, no space, no
    underscore, no other character. -/
def isDecimal (s : String) : Prop :=
  s.data ≠ [] ∧ ∀ c ∈ s.data, '0' ≤ c ∧ c ≤ '9'

instance (s : String) : Decidable (isDecimal s) := by
  unfold isDecimal
  infer_instance

/-- The number a string of decimal digits denotes, without any bound: each
    further digit multiplies the value by ten and adds the digit. -/
def decimalValue (s : String) : Nat :=
  s.data.foldl (fun n c => n * 10 + (c.toNat - '0'.toNat)) 0

end Spec

/-! ## Decimal numerals -/

theorem isDigit_iff (c : Char) : ('0' ≤ c ∧ c ≤ '9') ↔ (48 ≤ c.toNat ∧ c.toNat ≤ 57) := by
  simp only [Char.le_def]
  rfl

theorem digitChar_digit (d : Nat) (h : d < 10) :
    ('0' ≤ Nat.digitChar d ∧ Nat.digitChar d ≤ '9') ∧
      (Nat.digitChar d).toNat - '0'.toNat = d := by
  interval_cases d <;> decide

theorem digitChar_of_digit (c : Char) (h : '0' ≤ c ∧ c ≤ '9') :
    Nat.digitChar (c.toNat - '0'.toNat) = c ∧ c.toNat - '0'.toNat < 10 := by
  rw [isDigit_iff] at h
  obtain ⟨h1, h2⟩ := h
  have hc : c = Char.ofNat c.toNat := by simp
  generalize c.toNat = n at *
  subst hc
  interval_cases n <;> decide

/-- Digits already produced are carried along unchanged. -/
theorem toDigitsCore_append (fuel : Nat) : ∀ (n : Nat) (ds : List Char),
    Nat.toDigitsCore 10 fuel n ds = Nat.toDigitsCore 10 fuel n [] ++ ds := by
  induction fuel with
  | zero => intro n ds; simp [Nat.toDigitsCore]
  | succ f ih =>
    intro n ds
    simp only [Nat.toDigitsCore]
    split
    · simp
    · rw [ih (n / 10) (Nat.digitChar (n % 10) :: ds), ih (n / 10) [Nat.digitChar (n % 10)]]
      simp

/-- Any fuel above the number gives the same digits. -/
theorem toDigitsCore_fuel (f1 : Nat) : ∀ (f2 n : Nat) (ds : List Char), n < f1 → n < f2 →
    Nat.toDigitsCore 10 f1 n ds = Nat.toDigitsCore 10 f2 n ds := by
  induction f1 with
  | zero => intro f2 n ds h; omega
  | succ f ih =>
    intro f2 n ds h1 h2
    cases f2 with
    | zero => omega
    | succ g =>
      simp only [Nat.toDigitsCore]
      split
      · rfl
      · apply ih <;> omega

theorem toDigitsCore_succ (f n : Nat) (ds : List Char) :
    Nat.toDigitsCore 10 (f + 1) n ds =
      if n / 10 = 0 then Nat.digitChar (n % 10) :: ds
      else Nat.toDigitsCore 10 f (n / 10) (Nat.digitChar (n % 10) :: ds) := by
  simp [Nat.toDigitsCore]

/-- Appending a digit to a positive number appends its character. -/
theorem toDigits_snoc (n d : Nat) (hn : 0 < n) (hd : d < 10) :
    Nat.toDigits 10 (n * 10 + d) = Nat.toDigits 10 n ++ [Nat.digitChar d] := by
  have h1 : (n * 10 + d) / 10 = n := by omega
  have h2 : (n * 10 + d) % 10 = d := by omega
  have h3 : n ≠ 0 := by omega
  show Nat.toDigitsCore 10 (n * 10 + d + 1) (n * 10 + d) [] =
    Nat.toDigitsCore 10 (n + 1) n [] ++ [Nat.digitChar d]
  rw [toDigitsCore_succ, h1, h2, if_neg h3, toDigitsCore_append,
    toDigitsCore_fuel (n * 10 + d) (n + 1) n [] (by omega) (by omega)]

theorem toDigits_small (d : Nat) (hd : d < 10) : Nat.toDigits 10 d = [Nat.digitChar d] := by
  interval_cases d <;> rfl

/-- One step of the parsing loop on the character of a digit. -/
theorem parseLoop_digitChar (d n : Nat) (cs : List Char) (hd : d < 10)
    (hn : n * 10 + d < 2 ^ 32) :
    strconv.parseLoop (Nat.digitChar d :: cs) n = strconv.parseLoop cs (n * 10 + d) := by
  have h := digitChar_digit d hd
  have c1 : ¬ (n ≥ 1844674407370955162) := by omega
  have c2 : ¬ (n * 10 + d > 4294967295) := by omega
  rw [strconv.parseLoop, if_pos h.1, h.2, if_neg c1, if_neg c2]

/-- Reading the digits that `toDigitsCore` puts in front of `ds` brings the
    value read so far from 0 to `n`. -/
theorem parseLoop_toDigitsCore (fuel : Nat) : ∀ (n : Nat) (ds : List Char),
    n < fuel → n < 2 ^ 32 →
    strconv.parseLoop (Nat.toDigitsCore 10 fuel n ds) 0 = strconv.parseLoop ds n := by
  induction fuel with
  | zero => intro n ds h; omega
  | succ f ih =>
    intro n ds hf hn
    rw [toDigitsCore_succ]
    split
    · rw [parseLoop_digitChar _ _ _ (Nat.mod_lt _ (by decide)) (by omega)]
      congr 1
      omega
    · rw [ih (n / 10) _ (by omega) (by omega),
        parseLoop_digitChar _ _ _ (Nat.mod_lt _ (by decide)) (by omega)]
      congr 1
      omega

theorem toDigits_ne_nil (n : Nat) : Nat.toDigits 10 n ≠ [] := by
  rw [Nat.toDigits, toDigitsCore_succ]
  split
  · simp
  · rw [toDigitsCore_append]; simp

/-- Round trip of `%d` and `ParseUint` on 32-bit values. -/
theorem ParseUint_toString (n : Nat) (h : n < 2 ^ 32) :
    strconv.ParseUint (toString n) = (n, none) := by
  have hne : toString n ≠ "" := by
    intro e
    have := congrArg String.data e
    exact toDigits_ne_nil n this
  unfold strconv.ParseUint
  rw [if_neg hne]
  show strconv.parseLoop (Nat.toDigits 10 n) 0 = (n, none)
  rw [Nat.toDigits, parseLoop_toDigitsCore (n + 1) n [] (by omega) h]
  rfl

/-- What a successful run of the parsing loop says about its first character. -/
theorem parseLoop_cons_ok (c : Char) (cs : List Char) (n t : Nat)
    (h : strconv.parseLoop (c :: cs) n = (t, none)) :
    ('0' ≤ c ∧ c ≤ '9') ∧ n * 10 + (c.toNat - '0'.toNat) ≤ 4294967295 ∧
      strconv.parseLoop cs (n * 10 + (c.toNat - '0'.toNat)) = (t, none) := by
  rw [strconv.parseLoop] at h
  split at h
  · rename_i hc
    split at h
    · simp at h
    · split at h
      · simp at h
      · exact ⟨hc, by omega, h⟩
  · simp at h

/-- A value the parsing loop returns without error fits in 32 bits. -/
theorem parseLoop_lt (cs : List Char) : ∀ (n t : Nat),
    strconv.parseLoop cs n = (t, none) → n < 2 ^ 32 → t < 2 ^ 32 := by
  induction cs with
  | nil =>
    intro n t h hn
    simp only [strconv.parseLoop, Prod.mk.injEq, and_true] at h
    omega
  | cons c cs ih =>
    intro n t h hn
    obtain ⟨_, hle, hrest⟩ := parseLoop_cons_ok c cs n t h
    exact ih _ t hrest (by omega)

/-- Once the value read so far is positive, the characters read next are the
    remaining digits of the result. -/
theorem parseLoop_digits (cs : List Char) : ∀ (n t : Nat),
    strconv.parseLoop cs n = (t, none) → 0 < n →
    Nat.toDigits 10 t = Nat.toDigits 10 n ++ cs := by
  induction cs with
  | nil =>
    intro n t h hn
    simp only [strconv.parseLoop, Prod.mk.injEq, and_true] at h
    simp [h]
  | cons c cs ih =>
    intro n t h hn
    obtain ⟨hc, _, hrest⟩ := parseLoop_cons_ok c cs n t h
    have hd := digitChar_of_digit c hc
    rw [ih _ t hrest (by omega), toDigits_snoc n _ hn hd.2, hd.1]
    simp

/-- A string that parses is the numeral of its value after some zeros. -/
theorem parseLoop_canonical (cs : List Char) : ∀ (t : Nat),
    strconv.parseLoop cs 0 = (t, none) → cs ≠ [] →
    ∃ k : Nat, cs = List.replicate k '0' ++ Nat.toDigits 10 t := by
  induction cs with
  | nil => intro t _ h; exact absurd rfl h
  | cons c cs ih =>
    intro t h _
    obtain ⟨hc, _, hrest⟩ := parseLoop_cons_ok c cs 0 t h
    have hd := digitChar_of_digit c hc
    rw [Nat.zero_mul, Nat.zero_add] at hrest
    by_cases hz : c.toNat - '0'.toNat = 0
    · rw [hz] at hrest
      have hc0 : c = '0' := by rw [← hd.1, hz]; rfl
      subst hc0
      by_cases hnil : cs = []
      · subst hnil
        simp only [strconv.parseLoop, Prod.mk.injEq, and_true] at hrest
        exact ⟨0, by rw [← hrest]; rfl⟩
      · obtain ⟨k, hk⟩ := ih t hrest hnil
        exact ⟨k + 1, by rw [List.replicate_succ, List.cons_append, ← hk]⟩
    · refine ⟨0, ?_⟩
      rw [parseLoop_digits cs _ t hrest (by omega), toDigits_small _ hd.2, hd.1]
      rfl

/-- A string that `ParseUint` accepts is the `%d` form of its value, below
    `2^32`, after some zeros. -/
theorem ParseUint_ok (s : String) (t : Nat) (h : strconv.ParseUint s = (t, none)) :
    t < 2 ^ 32 ∧ ∃ k : Nat, s = String.mk (List.replicate k '0') ++ toString t := by
  unfold strconv.ParseUint at h
  split at h
  · simp at h
  · rename_i hne
    refine ⟨parseLoop_lt _ _ _ h (by decide), ?_⟩
    have hd : s.data ≠ [] := by
      intro e
      apply hne
      apply String.ext
      rw [e]
    obtain ⟨k, hk⟩ := parseLoop_canonical _ t h hd
    refine ⟨k, ?_⟩
    apply String.ext
    rw [hk, String.data_append]
    rfl

/-! ## The loops over the store -/

/-- The model of `hash/adler32` on the usual test vector. -/
theorem Sum32_Wikipedia : adler32.Sum32 (bytes "Wikipedia") = 0x11E60398 := by
  decide

theorem Sum32_lt (p : List Nat) : adler32.Sum32 p < 2 ^ 32 :=
  Nat.mod_lt _ (by decide)

theorem userSum_lt (id : Int) (user : User) : userSum id user < 2 ^ 32 :=
  Sum32_lt _

/-- The loop of `Authenticate` either fails with `(0, ErrInvalidCredentials)`
    or returns the id of an entry whose checksum is the parsed token. -/
theorem authLoop_cases (t : Nat) (l : List (Int × User)) :
    authLoop t l = (0, some ErrInvalidCredentials) ∨
      ∃ e ∈ l, t % 2 ^ 32 = userSum e.1 e.2 ∧ authLoop t l = (e.1, none) := by
  induction l with
  | nil => left; rfl
  | cons e l ih =>
    obtain ⟨id, user⟩ := e
    rw [authLoop]
    split
    · rename_i h
      right
      exact ⟨(id, user), List.mem_cons_self _ _, h, rfl⟩
    · rcases ih with h | ⟨e, he, h1, h2⟩
      · left; exact h
      · right; exact ⟨e, List.mem_cons_of_mem _ he, h1, h2⟩

/-- The loop of `Authenticate` fails when no entry has the parsed token as
    its checksum. -/
theorem authLoop_none (t : Nat) (l : List (Int × User))
    (h : ∀ e ∈ l, t % 2 ^ 32 ≠ userSum e.1 e.2) :
    authLoop t l = (0, some ErrInvalidCredentials) := by
  rcases authLoop_cases t l with h1 | ⟨e, he, h1, _⟩
  · exact h1
  · exact absurd h1 (h e he)

/-- The loop of `Login` fails when no entry has both the username and the
    password. -/
theorem loginLoop_none (cred : Credentials) (l : List (Int × User))
    (h : ∀ e ∈ l, e.2.Username = cred.username → e.2.password ≠ cred.password) :
    loginLoop cred l = ("", some ErrInvalidCredentials) := by
  induction l with
  | nil => rfl
  | cons e l ih =>
    obtain ⟨id, user⟩ := e
    rw [loginLoop]
    split
    · rename_i hu
      rw [if_neg (h (id, user) (List.mem_cons_self _ _) hu)]
    · exact ih (fun e he => h e (List.mem_cons_of_mem _ he))

/-- An id that `Authenticate` returns without error is a key of the map. -/
theorem authLoop_lookup (t : Nat) (l : List (Int × User)) (id : Int)
    (h : authLoop t l = (id, none)) : ∃ user, l.lookup id = some user := by
  induction l with
  | nil => simp [authLoop] at h
  | cons e l ih =>
    obtain ⟨j, v⟩ := e
    rw [authLoop] at h
    by_cases hj : id = j
    · subst hj
      exact ⟨v, by simp [List.lookup]⟩
    · split at h
      · simp only [Prod.mk.injEq, and_true] at h
        exact absurd h.symm hj
      · obtain ⟨user, hu⟩ := ih h
        refine ⟨user, ?_⟩
        rw [List.lookup]
        have : (id == j) = false := by simpa using hj
        rw [this]
        exact hu

/-- When the loop of `Authenticate` reports an error, no entry has the parsed
    token as its checksum. -/
theorem authLoop_error (t : Nat) (l : List (Int × User)) (id : Int) (err : Error)
    (h : authLoop t l = (id, some err)) : ∀ e ∈ l, t % 2 ^ 32 ≠ userSum e.1 e.2 := by
  induction l with
  | nil => intro e he; cases he
  | cons x l ih =>
    obtain ⟨j, v⟩ := x
    rw [authLoop] at h
    split at h
    · simp at h
    · rename_i hne
      intro e he
      rcases List.mem_cons.mp he with rfl | he
      · exact hne
      · exact ih h e he

/-- In a store with pairwise distinct usernames the loop of `Login` reaches
    the entry whose credentials are presented. -/
theorem loginLoop_found (l : List (Int × User)) (i : Int) (u : User)
    (hmem : (i, u) ∈ l)
    (hdist : l.Pairwise (fun e1 e2 => e1.2.Username ≠ e2.2.Username)) :
    loginLoop ⟨u.Username, u.password⟩ l = (toString (userSum i u), none) := by
  induction l with
  | nil => cases hmem
  | cons x l ih =>
    obtain ⟨j, v⟩ := x
    rw [List.pairwise_cons] at hdist
    rw [loginLoop]
    rcases List.mem_cons.mp hmem with heq | hin
    · simp only [Prod.mk.injEq] at heq
      obtain ⟨rfl, rfl⟩ := heq
      simp
    · have hne : ¬ (v.Username = u.Username) := hdist.1 (i, u) hin
      rw [if_neg hne]
      exact ih hin hdist.2

/-- Zeros in front of a numeral do not change the value `ParseUint` reads. -/
theorem ParseUint_zeros_toString (k n : Nat) (h : n < 2 ^ 32) :
    strconv.ParseUint (String.mk (List.replicate k '0') ++ toString n) = (n, none) := by
  have hne : String.mk (List.replicate k '0') ++ toString n ≠ "" := by
    intro e
    have e1 := congrArg String.data e
    rw [String.data_append] at e1
    exact toDigits_ne_nil n (List.append_eq_nil.mp e1).2
  unfold strconv.ParseUint
  rw [if_neg hne, String.data_append]
  clear hne
  show strconv.parseLoop (List.replicate k '0' ++ Nat.toDigits 10 n) 0 = (n, none)
  induction k with
  | zero =>
    rw [List.replicate_zero, List.nil_append, Nat.toDigits,
      parseLoop_toDigitsCore (n + 1) n [] (by omega) h]
    rfl
  | succ k ih =>
    rw [List.replicate_succ, List.cons_append]
    exact (parseLoop_digitChar 0 0 _ (by decide) (by decide)).trans ih

/-! ## Issuing and validating tokens -/

/-- C1. Round trip of issue and validate: in a store in which no two users
    derive the same token, for every user `u` stored under id `i`,
    `Authenticate` applied to the token issued for `u` (the decimal string of
    the Adler-32 of `"<i>:<username>:<password>"`) returns `(i, nil)`,
    whatever the order in which the map is visited. -/
theorem authenticate_issued_token (a : inMemoryAuth) (i : Int) (u : User)
    (hmem : (i, u) ∈ a.users)
    (hinj : ∀ e1 ∈ a.users, ∀ e2 ∈ a.users,
      toString (userSum e1.1 e1.2) = toString (userSum e2.1 e2.2) → e1.1 = e2.1) :
    Authenticate a
      (toString (adler32.Sum32 (bytes (toString i ++ ":" ++ u.Username ++ ":" ++ u.password))))
      = (i, none) := by
  show Authenticate a (toString (userSum i u)) = (i, none)
  unfold Authenticate
  rw [ParseUint_toString _ (userSum_lt i u)]
  show authLoop (userSum i u) a.users = (i, none)
  rcases authLoop_cases (userSum i u) a.users with h | ⟨e, he, h1, h2⟩
  · exact absurd (Nat.mod_eq_of_lt (userSum_lt i u))
      (authLoop_error _ _ _ _ h (i, u) hmem)
  · rw [Nat.mod_eq_of_lt (userSum_lt i u)] at h1
    rw [h2, hinj e he (i, u) hmem (by rw [h1])]

/-- C1, on the store of `main`: no two of its users derive the same token, and
    the tokens of `carlos` and of `octocat` authenticate as ids 1 and 2. -/
theorem authenticate_issued_token_witness :
    (∀ e1 ∈ startup.users, ∀ e2 ∈ startup.users,
      toString (userSum e1.1 e1.2) = toString (userSum e2.1 e2.2) → e1.1 = e2.1) ∧
    Login startup ⟨"carlos", "12345"⟩ = ("564724777", none) ∧
    Authenticate startup "564724777" = (1, none) ∧
    Authenticate startup
      (toString (adler32.Sum32 (bytes (toString (2 : Int) ++ ":" ++ "octocat" ++ ":" ++ "ABCDE"))))
      = (2, none) :=
  ⟨by decide, by decide,
    authenticate_issued_token startup 1 ⟨1, "carlos", "carlos@me.com", "12345"⟩
      (by decide) (by decide),
    authenticate_issued_token startup 2 ⟨2, "octocat", "octocat@me.com", "ABCDE"⟩
      (by decide) (by decide)⟩

/-- C2 as stated fails: in the store of `main` the string `"0564724777"` is the
    token of no user, yet `Authenticate` accepts it as user 1, because the token
    is compared by value and a numeral may start with zeros. -/
theorem authenticate_accepts_leading_zero :
    (∀ e ∈ startup.users, "0564724777" ≠ toString (userSum e.1 e.2)) ∧
    Authenticate startup "0564724777" = (1, none) ∧
    Authenticate startup "0564724777" ≠ (0, some ErrInvalidCredentials) := by
  decide

/-- C2, amended: a string that is not the token issued for some user of the
    store, with or without zeros in front of it, is rejected by `Authenticate`
    with `ErrInvalidCredentials`. -/
theorem authenticate_rejects_other_strings (a : inMemoryAuth) (s : String)
    (h : ∀ e ∈ a.users, ∀ k : Nat,
      s ≠ String.mk (List.replicate k '0') ++ toString (userSum e.1 e.2)) :
    Authenticate a s = (0, some ErrInvalidCredentials) := by
  unfold Authenticate
  split
  · rename_i t hp
    obtain ⟨hlt, k, hk⟩ := ParseUint_ok s t hp
    apply authLoop_none
    intro e he heq
    rw [Nat.mod_eq_of_lt hlt] at heq
    exact h e he k (by rw [← heq]; exact hk)
  · rfl

/-- C2, amended, on the store of `main`: `"564724778"` and `"12x"` are no
    user's token, with or without zeros in front, and are rejected. -/
theorem authenticate_rejects_other_strings_witness :
    Authenticate startup "564724778" = (0, some ErrInvalidCredentials) ∧
    Authenticate startup "12x" = (0, some ErrInvalidCredentials) :=
  ⟨authenticate_rejects_other_strings startup "564724778" (by
      intro e he k heq
      have hp := congrArg strconv.ParseUint heq
      rw [ParseUint_zeros_toString k _ (userSum_lt e.1 e.2)] at hp
      clear heq
      revert e
      decide),
    by decide⟩

/-- C3. In a store with pairwise distinct usernames, for every user `u` stored
    under id `i`, `Login` with the credentials `(u.Username, u.password)`
    returns no error and the base-10 string of the 32-bit Adler-32 checksum of
    the bytes of `"<i>:<u.Username>:<u.password>"`, whatever the order in which
    the map is visited. -/
theorem login_returns_token (a : inMemoryAuth) (i : Int) (u : User)
    (hmem : (i, u) ∈ a.users)
    (hdist : a.users.Pairwise (fun e1 e2 => e1.2.Username ≠ e2.2.Username)) :
    Login a ⟨u.Username, u.password⟩ =
      (toString (adler32.Sum32 (bytes (toString i ++ ":" ++ u.Username ++ ":" ++ u.password))),
        none) ∧
    adler32.Sum32 (bytes (toString i ++ ":" ++ u.Username ++ ":" ++ u.password)) < 2 ^ 32 :=
  ⟨loginLoop_found a.users i u hmem hdist, Sum32_lt _⟩

/-- C3, on the store of `main`, visited in either order. -/
theorem login_returns_token_witness :
    Login startup ⟨"carlos", "12345"⟩ = ("564724777", none) ∧
    Login ⟨startup.users.reverse⟩ ⟨"octocat", "ABCDE"⟩ = ("682624227", none) :=
  ⟨(login_returns_token startup 1 ⟨1, "carlos", "carlos@me.com", "12345"⟩
      (by decide) (by decide)).1,
    (login_returns_token ⟨startup.users.reverse⟩ 2 ⟨2, "octocat", "octocat@me.com", "ABCDE"⟩
      (by decide) (by decide)).1⟩

/-! ## The handler -/

/-- C4. Anti-enumeration: `Login` with an existing username and a wrong
    password and `Login` with a username that no user has return the same
    result, the empty token with `ErrInvalidCredentials`, and the `/login`
    handler answers both with the same response: status 401, the body
    `"Invalid credentials\n"`, no cookie. The two calls may visit the map in
    different orders. -/
theorem login_failures_indistinguishable (a b : inMemoryAuth) (c1 c2 : Credentials)
    (r1 r2 : Request) (hperm : b.users.Perm a.users)
    (_hex : ∃ e ∈ a.users, e.2.Username = c1.username)
    (hwrong : ∀ e ∈ a.users, e.2.Username = c1.username → e.2.password ≠ c1.password)
    (hnone : ∀ e ∈ a.users, e.2.Username ≠ c2.username)
    (hp1 : r1.URL.Path = "/login") (hm1 : r1.Method ≠ "GET") (hf1 : r1.ParseFormErr = none)
    (hu1 : r1.Form.lookup "username" = some [c1.username])
    (hw1 : r1.Form.lookup "password" = some [c1.password])
    (hp2 : r2.URL.Path = "/login") (hm2 : r2.Method ≠ "GET") (hf2 : r2.ParseFormErr = none)
    (hu2 : r2.Form.lookup "username" = some [c2.username])
    (hw2 : r2.Form.lookup "password" = some [c2.password]) :
    Login a c1 = ("", some ErrInvalidCredentials) ∧
    Login b c2 = ("", some ErrInvalidCredentials) ∧
    Login a c1 = Login b c2 ∧
    handler a newRecorder r1 =
      ⟨⟨[], [], some 401, "Invalid credentials\n", false⟩, [Call.Login c1], false⟩ ∧
    handler b newRecorder r2 =
      ⟨⟨[], [], some 401, "Invalid credentials\n", false⟩, [Call.Login c2], false⟩ ∧
    (handler a newRecorder r1).w = (handler b newRecorder r2).w := by
  have l1 : Login a c1 = ("", some ErrInvalidCredentials) := loginLoop_none c1 a.users hwrong
  have l2 : Login b c2 = ("", some ErrInvalidCredentials) :=
    loginLoop_none c2 b.users
      (fun e he hu => absurd hu (hnone e (hperm.mem_iff.mp he)))
  have g1 : getCredentials r1 = some (c1, none) := by
    simp [getCredentials, Request.FormValues, hf1, hu1, hw1]
  have g2 : getCredentials r2 = some (c2, none) := by
    simp [getCredentials, Request.FormValues, hf2, hu2, hw2]
  have o1 : handler a newRecorder r1 =
      ⟨⟨[], [], some 401, "Invalid credentials\n", false⟩, [Call.Login c1], false⟩ := by
    simp only [handler, hp1, if_true, handleLogin, if_neg hm1, g1, l1]
    rfl
  have o2 : handler b newRecorder r2 =
      ⟨⟨[], [], some 401, "Invalid credentials\n", false⟩, [Call.Login c2], false⟩ := by
    simp only [handler, hp2, if_true, handleLogin, if_neg hm2, g2, l2]
    rfl
  exact ⟨l1, l2, l1.trans l2.symm, o1, o2, by rw [o1, o2]⟩

/-- C4, on the store of `main`: `carlos` with a wrong password and the unknown
    name `nobody`, the second against the map visited in the other order. -/
theorem login_failures_indistinguishable_witness :
    Login startup ⟨"carlos", "54321"⟩ = Login ⟨startup.users.reverse⟩ ⟨"nobody", "12345"⟩ ∧
    (handler startup newRecorder
      ⟨"POST", ⟨"/login", ""⟩, [], [], none,
        [("username", ["carlos"]), ("password", ["54321"])]⟩).w =
    (handler ⟨startup.users.reverse⟩ newRecorder
      ⟨"POST", ⟨"/login", ""⟩, [], [], none,
        [("username", ["nobody"]), ("password", ["12345"])]⟩).w :=
  have h := login_failures_indistinguishable startup ⟨startup.users.reverse⟩
    ⟨"carlos", "54321"⟩ ⟨"nobody", "12345"⟩
    ⟨"POST", ⟨"/login", ""⟩, [], [], none, [("username", ["carlos"]), ("password", ["54321"])]⟩
    ⟨"POST", ⟨"/login", ""⟩, [], [], none, [("username", ["nobody"]), ("password", ["12345"])]⟩
    (List.reverse_perm _) (by decide) (by decide) (by decide)
    (by decide) (by decide) (by decide) (by decide) (by decide)
    (by decide) (by decide) (by decide) (by decide) (by decide)
  ⟨h.2.2.1, h.2.2.2.2.2⟩

/-- C5. A request to `/auth` with exactly one `X-Auth-Token` value `t`: when
    `Authenticate` returns an id, the response has status 200, an empty body
    and the header `X-Auth-User-ID` with the single value `decimal(id)`;
    otherwise it has status 401 and no `X-Auth-User-ID` header. -/
theorem auth_single_token (a : inMemoryAuth) (r : Request) (t : String)
    (hp : r.URL.Path = "/auth") (hh : r.Header.lookup "X-Auth-Token" = some [t]) :
    (∀ id : Int, Authenticate a t = (id, none) →
      handler a newRecorder r =
        ⟨⟨[("X-Auth-User-ID", [toString id])], [], some 200, "", false⟩,
          [Call.Authenticate t], false⟩) ∧
    ((Authenticate a t).2 ≠ none →
      handler a newRecorder r =
        ⟨⟨[], [], some 401, "Unauthorized request\n", false⟩, [Call.Authenticate t], false⟩ ∧
      (handler a newRecorder r).w.Code = some 401 ∧
      (handler a newRecorder r).w.Header.lookup "X-Auth-User-ID" = none) := by
  have hpath : handler a newRecorder r = handleAuth a newRecorder r := by
    simp [handler, hp]
  have hh2 : r.Header.lookup headerName = some [t] := hh
  constructor
  · intro id ha
    rw [hpath]
    simp only [handleAuth, hh2, List.length_singleton, ne_eq, not_true_eq_false, if_false,
      List.headD_cons, ha]
    rfl
  · intro hne
    have ho : handler a newRecorder r =
        ⟨⟨[], [], some 401, "Unauthorized request\n", false⟩, [Call.Authenticate t], false⟩ := by
      rw [hpath]
      simp only [handleAuth, hh2, List.length_singleton, ne_eq, not_true_eq_false, if_false,
        List.headD_cons]
      split
      · rfl
      · rename_i ha
        rw [ha] at hne
        exact absurd rfl hne
    exact ⟨ho, by rw [ho], by rw [ho]; rfl⟩

/-- C5, on the store of `main`: the token `Login` issues for `carlos`/`12345`
    yields 200 with `X-Auth-User-ID: 1`. -/
theorem auth_single_token_witness :
    Login startup ⟨"carlos", "12345"⟩ = ("564724777", none) ∧
    handler startup newRecorder
      ⟨"GET", ⟨"/auth", ""⟩, [("X-Auth-Token", ["564724777"])], [], none, []⟩ =
      ⟨⟨[("X-Auth-User-ID", ["1"])], [], some 200, "", false⟩,
        [Call.Authenticate "564724777"], false⟩ :=
  ⟨by decide,
    (auth_single_token startup
      ⟨"GET", ⟨"/auth", ""⟩, [("X-Auth-Token", ["564724777"])], [], none, []⟩ "564724777"
      rfl rfl).1 1 (by decide)⟩

/-- C6. A request to `/auth` whose `X-Auth-Token` header is absent or carries
    a number of values other than one gets status 401, no header is set, and
    `Authenticate` is not called. -/
theorem auth_header_count (a : inMemoryAuth) (r : Request) (hp : r.URL.Path = "/auth")
    (hh : r.Header.lookup "X-Auth-Token" = none ∨
      ∃ values, r.Header.lookup "X-Auth-Token" = some values ∧ values.length ≠ 1) :
    handler a newRecorder r = ⟨⟨[], [], some 401, "", false⟩, [], false⟩ ∧
    (handler a newRecorder r).w.Header.lookup "X-Auth-User-ID" = none ∧
    ∀ t, Call.Authenticate t ∉ (handler a newRecorder r).calls := by
  have ho : handler a newRecorder r = ⟨⟨[], [], some 401, "", false⟩, [], false⟩ := by
    have hpath : handler a newRecorder r = handleAuth a newRecorder r := by
      simp [handler, hp]
    rw [hpath]
    rcases hh with h | ⟨values, h, hl⟩
    · have h2 : r.Header.lookup headerName = none := h
      simp only [handleAuth, h2]
      rfl
    · have h2 : r.Header.lookup headerName = some values := h
      simp only [handleAuth, h2, hl, ne_eq, not_false_eq_true, if_true]
      rfl
  refine ⟨ho, by rw [ho]; rfl, ?_⟩
  intro t
  rw [ho]
  simp

/-- C6: no header, a header without a value, and a header with two values. -/
theorem auth_header_count_witness :
    handler startup newRecorder ⟨"GET", ⟨"/auth", ""⟩, [], [], none, []⟩ =
      ⟨⟨[], [], some 401, "", false⟩, [], false⟩ ∧
    handler startup newRecorder ⟨"GET", ⟨"/auth", ""⟩, [("X-Auth-Token", [])], [], none, []⟩ =
      ⟨⟨[], [], some 401, "", false⟩, [], false⟩ ∧
    handler startup newRecorder
      ⟨"GET", ⟨"/auth", ""⟩, [("X-Auth-Token", ["564724777", "564724777"])], [], none, []⟩ =
      ⟨⟨[], [], some 401, "", false⟩, [], false⟩ :=
  ⟨(auth_header_count startup ⟨"GET", ⟨"/auth", ""⟩, [], [], none, []⟩ rfl
      (Or.inl rfl)).1,
    (auth_header_count startup ⟨"GET", ⟨"/auth", ""⟩, [("X-Auth-Token", [])], [], none, []⟩ rfl
      (Or.inr ⟨[], rfl, by decide⟩)).1,
    (auth_header_count startup
      ⟨"GET", ⟨"/auth", ""⟩, [("X-Auth-Token", ["564724777", "564724777"])], [], none, []⟩ rfl
      (Or.inr ⟨["564724777", "564724777"], rfl, by decide⟩)).1⟩

/-- After a successful `Authenticate` the `/me` case looks the user up, finds
    it, and writes its JSON encoding. -/
theorem handleMe_ok (a : inMemoryAuth) (r : Request) (value : String) (id : Int)
    (hp : r.URL.Path = "/me") (hc : r.Cookies.lookup "nginx-auth" = some value)
    (ha : Authenticate a value = (id, none)) :
    ∃ u : User, a.users.lookup id = some u ∧
      handler a newRecorder r =
        ⟨⟨[("Content-Type", ["application/json"])], [], some 200,
            json.object u.ID u.Username u.Email, false⟩,
          [Call.Authenticate value, Call.GetUser id], false⟩ := by
  have hloop : authLoop (strconv.ParseUint value).1 a.users = (id, none) := by
    unfold Authenticate at ha
    split at ha
    · rename_i t hpu
      rw [hpu]
      exact ha
    · simp [ErrInvalidCredentials] at ha
  obtain ⟨u, hu⟩ := authLoop_lookup _ _ _ hloop
  refine ⟨u, hu, ?_⟩
  have hpath : handler a newRecorder r = handleMe a newRecorder r := by
    simp [handler, hp]
  have hc2 : r.Cookies.lookup cookieName = some value := hc
  rw [hpath]
  simp only [handleMe, Request.Cookie, hc2, ha, meLookup, GetUser, hu, json.Marshal]
  rfl

/-- C7. The `/me` response never carries the secret: for an authenticated
    `/me` request the body is the JSON object with exactly the members `ID`,
    `Username` and `Email` of the resolved user, so two requests, against any
    two stores, whose resolved users agree on `ID`, `Username` and `Email`
    (and may differ in the password) get byte-identical bodies. -/
theorem me_body_without_password (a1 a2 : inMemoryAuth) (r1 r2 : Request)
    (v1 v2 : String) (id1 id2 : Int)
    (hp1 : r1.URL.Path = "/me") (hc1 : r1.Cookies.lookup "nginx-auth" = some v1)
    (ha1 : Authenticate a1 v1 = (id1, none))
    (hp2 : r2.URL.Path = "/me") (hc2 : r2.Cookies.lookup "nginx-auth" = some v2)
    (ha2 : Authenticate a2 v2 = (id2, none)) :
    ∃ u1 u2 : User, GetUser a1 id1 = (u1, none) ∧ GetUser a2 id2 = (u2, none) ∧
      (handler a1 newRecorder r1).w.Code = some 200 ∧
      (handler a1 newRecorder r1).w.Body =
        "\x7b\"ID\":" ++ toString u1.ID ++ ",\"Username\":" ++ json.quote u1.Username ++
          ",\"Email\":" ++ json.quote u1.Email ++ "\x7d" ∧
      (handler a2 newRecorder r2).w.Body =
        "\x7b\"ID\":" ++ toString u2.ID ++ ",\"Username\":" ++ json.quote u2.Username ++
          ",\"Email\":" ++ json.quote u2.Email ++ "\x7d" ∧
      (u1.ID = u2.ID → u1.Username = u2.Username → u1.Email = u2.Email →
        (handler a1 newRecorder r1).w.Body = (handler a2 newRecorder r2).w.Body) := by
  obtain ⟨u1, hu1, ho1⟩ := handleMe_ok a1 r1 v1 id1 hp1 hc1 ha1
  obtain ⟨u2, hu2, ho2⟩ := handleMe_ok a2 r2 v2 id2 hp2 hc2 ha2
  refine ⟨u1, u2, by simp [GetUser, hu1], by simp [GetUser, hu2], by rw [ho1], by rw [ho1]; rfl,
    by rw [ho2]; rfl, ?_⟩
  intro h1 h2 h3
  rw [ho1, ho2]
  show json.object u1.ID u1.Username u1.Email = json.object u2.ID u2.Username u2.Email
  rw [h1, h2, h3]

/-- C7, on the store of `main` and on a store in which `carlos` has another
    password (hence another token): the two `/me` bodies are the same text,
    in which the password does not occur. -/
theorem me_body_without_password_witness :
    (handler startup newRecorder
      ⟨"GET", ⟨"/me", ""⟩, [], [("nginx-auth", "564724777")], none, []⟩).w.Body =
      "\x7b\"ID\":1,\"Username\":\"carlos\",\"Email\":\"carlos@me.com\"\x7d" ∧
    (handler startup newRecorder
      ⟨"GET", ⟨"/me", ""⟩, [], [("nginx-auth", "564724777")], none, []⟩).w.Body =
    (handler ⟨[(1, ⟨1, "carlos", "carlos@me.com", "54321"⟩)]⟩ newRecorder
      ⟨"GET", ⟨"/me", ""⟩, [], [("nginx-auth", "566035497")], none, []⟩).w.Body := by
  obtain ⟨u1, u2, g1, g2, _, b1, _, heq⟩ := me_body_without_password startup
    ⟨[(1, ⟨1, "carlos", "carlos@me.com", "54321"⟩)]⟩
    ⟨"GET", ⟨"/me", ""⟩, [], [("nginx-auth", "564724777")], none, []⟩
    ⟨"GET", ⟨"/me", ""⟩, [], [("nginx-auth", "566035497")], none, []⟩
    "564724777" "566035497" 1 1 rfl rfl (by decide) rfl rfl (by decide)
  have e1 : u1 = ⟨1, "carlos", "carlos@me.com", "12345"⟩ := by
    have : GetUser startup 1 = (⟨1, "carlos", "carlos@me.com", "12345"⟩, none) := by decide
    rw [this] at g1
    exact (Prod.mk.inj g1).1.symm
  have e2 : u2 = ⟨1, "carlos", "carlos@me.com", "54321"⟩ := by
    have : GetUser ⟨[(1, ⟨1, "carlos", "carlos@me.com", "54321"⟩)]⟩ 1 =
        (⟨1, "carlos", "carlos@me.com", "54321"⟩, none) := by decide
    rw [this] at g2
    exact (Prod.mk.inj g2).1.symm
  subst e1 e2
  exact ⟨b1.trans (by decide), heq rfl rfl rfl⟩

/-- C9 fails on the code: a `POST /login` whose form lacks the password, or
    has two usernames, makes `getCredentials` call `log.Fatalln`; the process
    ends and nothing, neither a status nor a body, has been written. -/
theorem login_malformed_form_exits :
    handler startup newRecorder
      ⟨"POST", ⟨"/login", ""⟩, [], [], none, [("username", ["carlos"])]⟩ =
      ⟨⟨[], [], none, "", false⟩, [], true⟩ ∧
    handler startup newRecorder
      ⟨"POST", ⟨"/login", ""⟩, [], [], none,
        [("username", ["carlos", "octocat"]), ("password", ["12345"])]⟩ =
      ⟨⟨[], [], none, "", false⟩, [], true⟩ := by
  decide

/-- C10 fails on the code: on `/me` with a cookie that `Authenticate` rejects
    the handler writes 401 and goes on, since the error branch has no `return`.
    It calls `GetUser(0)`. In the store of `main` there is no user 0 and
    `log.Fatalf` ends the process; in a store with a user 0 that user's record
    is written into the body after the error text. -/
theorem me_rejected_cookie_continues :
    handler startup newRecorder
      ⟨"GET", ⟨"/me", ""⟩, [], [("nginx-auth", "0")], none, []⟩ =
      ⟨⟨[], [], some 401, "Unauthorized request\n", false⟩,
        [Call.Authenticate "0", Call.GetUser 0], true⟩ ∧
    handler ⟨[(0, ⟨0, "root", "root@me.com", "toor"⟩)]⟩ newRecorder
      ⟨"GET", ⟨"/me", ""⟩, [], [("nginx-auth", "0")], none, []⟩ =
      ⟨⟨[("Content-Type", ["application/json"])], [], some 401,
          "Unauthorized request\n\x7b\"ID\":0,\"Username\":\"root\",\"Email\":\"root@me.com\"\x7d",
          false⟩,
        [Call.Authenticate "0", Call.GetUser 0], false⟩ := by
  decide

/-! ## The remaining routes -/

/-- The value under a key that `lookup` finds is an entry of the list. -/
theorem lookup_mem (l : List (Int × User)) (id : Int) (u : User)
    (h : l.lookup id = some u) : (id, u) ∈ l := by
  induction l with
  | nil => simp [List.lookup] at h
  | cons e l ih =>
    obtain ⟨j, v⟩ := e
    by_cases hj : id = j
    · subst hj
      simp [List.lookup] at h
      subst h
      exact List.mem_cons_self _ _
    · have hb : (id == j) = false := by simpa using hj
      rw [List.lookup, hb] at h
      exact List.mem_cons_of_mem _ (ih h)

/-- C11. Every request to `/logout` gets status 200. Without an `nginx-auth`
    cookie no cookie is set, so that repeating the call gives the same
    response; with one, the response sets that cookie with its value
    overwritten to `"--"` and `MaxAge` -1. -/
theorem logout_response (a : inMemoryAuth) (r : Request) (hp : r.URL.Path = "/logout") :
    (handler a newRecorder r).w.Code = some 200 ∧
    (handler a newRecorder r).exited = false ∧
    (r.Cookies.lookup "nginx-auth" = none →
      handler a newRecorder r = ⟨⟨[], [], some 200, "", false⟩, [], false⟩) ∧
    (∀ value : String, r.Cookies.lookup "nginx-auth" = some value →
      handler a newRecorder r =
        ⟨⟨[], [⟨"nginx-auth", "--", "", false, -1⟩], some 200, "", false⟩, [], false⟩) := by
  have hpath : handler a newRecorder r = handleLogout newRecorder r := by
    simp [handler, hp]
  have hnone : r.Cookies.lookup "nginx-auth" = none →
      handler a newRecorder r = ⟨⟨[], [], some 200, "", false⟩, [], false⟩ := by
    intro hc
    have hc2 : r.Cookies.lookup cookieName = none := hc
    rw [hpath]
    simp only [handleLogout, Request.Cookie, hc2]
    rfl
  have hsome : ∀ value : String, r.Cookies.lookup "nginx-auth" = some value →
      handler a newRecorder r =
        ⟨⟨[], [⟨"nginx-auth", "--", "", false, -1⟩], some 200, "", false⟩, [], false⟩ := by
    intro value hc
    have hc2 : r.Cookies.lookup cookieName = some value := hc
    rw [hpath]
    simp only [handleLogout, Request.Cookie, hc2]
    rfl
  refine ⟨?_, ?_, hnone, hsome⟩
  · cases hc : r.Cookies.lookup "nginx-auth" with
    | none => rw [hnone hc]
    | some value => rw [hsome value hc]
  · cases hc : r.Cookies.lookup "nginx-auth" with
    | none => rw [hnone hc]
    | some value => rw [hsome value hc]

/-- C11, on two requests: one without a cookie and one with the cookie that
    `/login` sets for `carlos`. -/
theorem logout_response_witness :
    handler startup newRecorder ⟨"GET", ⟨"/logout", ""⟩, [], [], none, []⟩ =
      ⟨⟨[], [], some 200, "", false⟩, [], false⟩ ∧
    handler startup newRecorder
      ⟨"GET", ⟨"/logout", ""⟩, [], [("nginx-auth", "564724777")], none, []⟩ =
      ⟨⟨[], [⟨"nginx-auth", "--", "", false, -1⟩], some 200, "", false⟩, [], false⟩ :=
  ⟨(logout_response startup ⟨"GET", ⟨"/logout", ""⟩, [], [], none, []⟩ rfl).2.2.1 rfl,
    (logout_response startup
      ⟨"GET", ⟨"/logout", ""⟩, [], [("nginx-auth", "564724777")], none, []⟩ rfl).2.2.2
      "564724777" rfl⟩

/-- C15. Routing is by exact, case-sensitive match and has no default route:
    for a request whose path is none of `/login`, `/logout`, `/auth`, `/me`
    the handler leaves the response writer as it found it (no status code, no
    header, no cookie, no body), calls nothing on `auth` and returns. -/
theorem unmatched_path_writes_nothing (a : inMemoryAuth) (w : ResponseWriter) (r : Request)
    (h1 : r.URL.Path ≠ "/login") (h2 : r.URL.Path ≠ "/logout")
    (h3 : r.URL.Path ≠ "/auth") (h4 : r.URL.Path ≠ "/me") :
    handler a w r = ⟨w, [], false⟩ ∧
    handler a newRecorder r = ⟨⟨[], [], none, "", false⟩, [], false⟩ := by
  constructor
  · simp only [handler, if_neg h1, if_neg h2, if_neg h3, if_neg h4]
  · simp only [handler, if_neg h1, if_neg h2, if_neg h3, if_neg h4]
    rfl

/-- C15, on the paths `/Login`, `/login/` and `/`. -/
theorem unmatched_path_writes_nothing_witness :
    handler startup newRecorder
      ⟨"POST", ⟨"/Login", ""⟩, [], [], none,
        [("username", ["carlos"]), ("password", ["12345"])]⟩ =
      ⟨⟨[], [], none, "", false⟩, [], false⟩ ∧
    handler startup newRecorder ⟨"GET", ⟨"/login/", ""⟩, [], [], none, []⟩ =
      ⟨⟨[], [], none, "", false⟩, [], false⟩ ∧
    handler startup newRecorder
      ⟨"GET", ⟨"/", ""⟩, [("X-Auth-Token", ["564724777"])], [("nginx-auth", "564724777")],
        none, []⟩ =
      ⟨⟨[], [], none, "", false⟩, [], false⟩ :=
  ⟨(unmatched_path_writes_nothing startup newRecorder
      ⟨"POST", ⟨"/Login", ""⟩, [], [], none,
        [("username", ["carlos"]), ("password", ["12345"])]⟩
      (by decide) (by decide) (by decide) (by decide)).2,
    (unmatched_path_writes_nothing startup newRecorder
      ⟨"GET", ⟨"/login/", ""⟩, [], [], none, []⟩
      (by decide) (by decide) (by decide) (by decide)).2,
    (unmatched_path_writes_nothing startup newRecorder
      ⟨"GET", ⟨"/", ""⟩, [("X-Auth-Token", ["564724777"])], [("nginx-auth", "564724777")],
        none, []⟩
      (by decide) (by decide) (by decide) (by decide)).2⟩

/-- C16. `Authenticate` only returns ids of stored users: when it returns
    `(id, nil)` the id is a key of the store and `GetUser(id)` succeeds with
    the user stored under it; hence a `/me` request whose cookie `Authenticate`
    accepts never reaches the "user not found" branch: the process is not
    ended and the response is 200 with that user's record. -/
theorem authenticate_returns_stored_id (a : inMemoryAuth) (token : String) (id : Int)
    (h : Authenticate a token = (id, none)) :
    ∃ u : User, (id, u) ∈ a.users ∧ GetUser a id = (u, none) ∧
      ∀ r : Request, r.URL.Path = "/me" → r.Cookies.lookup "nginx-auth" = some token →
        (handler a newRecorder r).exited = false ∧
        (handler a newRecorder r).w.Code = some 200 ∧
        (handler a newRecorder r).calls = [Call.Authenticate token, Call.GetUser id] ∧
        (handler a newRecorder r).w.Body = (json.Marshal u).1 := by
  have hloop : authLoop (strconv.ParseUint token).1 a.users = (id, none) := by
    unfold Authenticate at h
    split at h
    · rename_i t hpu
      rw [hpu]
      exact h
    · simp [ErrInvalidCredentials] at h
  obtain ⟨u, hu⟩ := authLoop_lookup _ _ _ hloop
  refine ⟨u, lookup_mem _ _ _ hu, by simp [GetUser, hu], ?_⟩
  intro r hp hc
  obtain ⟨v, hv, ho⟩ := handleMe_ok a r token id hp hc h
  rw [hu] at hv
  cases hv
  rw [ho]
  exact ⟨rfl, rfl, rfl, rfl⟩

/-- C16, on the store of `main` with the token of `octocat`. -/
theorem authenticate_returns_stored_id_witness :
    ∃ u : User, ((2 : Int), u) ∈ startup.users ∧ GetUser startup 2 = (u, none) ∧
      ∀ r : Request, r.URL.Path = "/me" → r.Cookies.lookup "nginx-auth" = some "682624227" →
        (handler startup newRecorder r).exited = false ∧
        (handler startup newRecorder r).w.Code = some 200 ∧
        (handler startup newRecorder r).calls =
          [Call.Authenticate "682624227", Call.GetUser 2] ∧
        (handler startup newRecorder r).w.Body = (json.Marshal u).1 :=
  authenticate_returns_stored_id startup "682624227" 2 (by decide)

/-! ## The checksum -/

/-- The first component of the Adler-32 state is the byte sum, modulo `mod`. -/
theorem foldl_step_fst (p : List Nat) : ∀ d : Nat × Nat,
    (p.foldl adler32.step d).1 % adler32.mod = (d.1 + p.sum) % adler32.mod := by
  induction p with
  | nil => intro d; simp
  | cons b p ih =>
    intro d
    rw [List.foldl_cons, ih, List.sum_cons]
    show ((d.1 + b) % adler32.mod + p.sum) % adler32.mod = (d.1 + (b + p.sum)) % adler32.mod
    rw [Nat.add_mod, Nat.mod_mod, ← Nat.add_mod, Nat.add_assoc]

/-- Both components of the Adler-32 state stay below `mod`. -/
theorem foldl_step_lt (p : List Nat) : ∀ d : Nat × Nat,
    d.1 < adler32.mod → d.2 < adler32.mod →
    (p.foldl adler32.step d).1 < adler32.mod ∧ (p.foldl adler32.step d).2 < adler32.mod := by
  induction p with
  | nil => intro d h1 h2; exact ⟨h1, h2⟩
  | cons b p ih =>
    intro d _ _
    rw [List.foldl_cons]
    exact ih _ (Nat.mod_lt _ (by decide)) (Nat.mod_lt _ (by decide))

theorem update_fst (p : List Nat) : (adler32.update p).1 = (1 + p.sum) % adler32.mod := by
  have h := foldl_step_fst p (1, 0)
  have hlt := (foldl_step_lt p (1, 0) (by decide) (by decide)).1
  rw [Nat.mod_eq_of_lt hlt] at h
  exact h

/-- The checksum is `s2 * 65536 + s1`: the two halves do not overlap and the
    32-bit word does not wrap. -/
theorem Sum32_eq (p : List Nat) :
    adler32.Sum32 p = (adler32.update p).2 * 65536 + (adler32.update p).1 := by
  obtain ⟨h1, h2⟩ := foldl_step_lt p (1, 0) (by decide) (by decide)
  have h1' : (adler32.update p).1 < 2 ^ 16 := by
    have : (adler32.update p).1 < adler32.mod := h1
    simp only [adler32.mod] at this
    omega
  have h2' : (adler32.update p).2 < 65521 := h2
  unfold adler32.Sum32
  rw [Nat.shiftLeft_eq, Nat.mul_comm, ← Nat.mul_add_lt_is_or h1']
  apply Nat.mod_eq_of_lt
  omega

/-- The low 16 bits of the checksum are 1 plus the byte sum, modulo 65521. -/
theorem Sum32_low (p : List Nat) : adler32.Sum32 p % 2 ^ 16 = (1 + p.sum) % 65521 := by
  have h1 : (adler32.update p).1 < adler32.mod :=
    (foldl_step_lt p (1, 0) (by decide) (by decide)).1
  have h2 : (adler32.update p).1 = (1 + p.sum) % 65521 := update_fst p
  simp only [adler32.mod] at h1
  rw [Sum32_eq, ← h2]
  omega

/-- C12. The token `"0"` is never valid in a store in which the bytes of each
    user's `"<id>:<username>:<password>"` sum to less than 65520: the low 16
    bits of every Adler-32 checksum are 1 plus the byte sum modulo 65521,
    hence not zero for these users; `Authenticate("0")` returns
    `ErrInvalidCredentials` and `/auth` with `X-Auth-Token: 0` responds 401. -/
theorem token_zero_rejected (a : inMemoryAuth)
    (h : ∀ e ∈ a.users, (bytes (userKey e.1 e.2)).sum < 65520) :
    (∀ p : List Nat, adler32.Sum32 p % 2 ^ 16 = (1 + p.sum) % 65521) ∧
    (∀ e ∈ a.users, userSum e.1 e.2 % 2 ^ 16 = 1 + (bytes (userKey e.1 e.2)).sum ∧
      userSum e.1 e.2 ≠ 0) ∧
    Authenticate a "0" = (0, some ErrInvalidCredentials) ∧
    ∀ r : Request, r.URL.Path = "/auth" → r.Header.lookup "X-Auth-Token" = some ["0"] →
      handler a newRecorder r =
        ⟨⟨[], [], some 401, "Unauthorized request\n", false⟩, [Call.Authenticate "0"], false⟩ := by
  have hlow : ∀ e ∈ a.users, userSum e.1 e.2 % 2 ^ 16 = 1 + (bytes (userKey e.1 e.2)).sum ∧
      userSum e.1 e.2 ≠ 0 := by
    intro e he
    have hs := h e he
    have hl : userSum e.1 e.2 % 2 ^ 16 = (1 + (bytes (userKey e.1 e.2)).sum) % 65521 :=
      Sum32_low _
    have hm : (1 + (bytes (userKey e.1 e.2)).sum) % 65521 = 1 + (bytes (userKey e.1 e.2)).sum :=
      Nat.mod_eq_of_lt (by omega)
    rw [hm] at hl
    refine ⟨hl, ?_⟩
    intro h0
    rw [h0] at hl
    omega
  have hauth : Authenticate a "0" = (0, some ErrInvalidCredentials) := by
    have hp : strconv.ParseUint "0" = (0, none) := by decide
    unfold Authenticate
    rw [hp]
    exact authLoop_none 0 a.users (fun e he h0 => (hlow e he).2 h0.symm)
  refine ⟨Sum32_low, hlow, hauth, ?_⟩
  intro r hp hh
  have hh2 : r.Header.lookup headerName = some ["0"] := hh
  simp only [handler, hp, handleAuth, hh2, List.length_singleton, ne_eq, not_true_eq_false,
    if_false, List.headD_cons, hauth]
  rfl

/-- C12, on the store of `main`, whose two byte sums are below 65520. -/
theorem token_zero_rejected_witness :
    (∀ e ∈ startup.users, (bytes (userKey e.1 e.2)).sum < 65520) ∧
    Authenticate startup "0" = (0, some ErrInvalidCredentials) ∧
    handler startup newRecorder ⟨"GET", ⟨"/auth", ""⟩, [("X-Auth-Token", ["0"])], [], none, []⟩ =
      ⟨⟨[], [], some 401, "Unauthorized request\n", false⟩, [Call.Authenticate "0"], false⟩ :=
  ⟨by decide, (token_zero_rejected startup (by decide)).2.2.1,
    (token_zero_rejected startup (by decide)).2.2.2
      ⟨"GET", ⟨"/auth", ""⟩, [("X-Auth-Token", ["0"])], [], none, []⟩ rfl rfl⟩

/-- C14. Token collisions exist: the records `1: cba/x` and `2: abb/x` have
    different ids and the same token, because `"1:cba:x"` and `"2:abb:x"` have
    the same Adler-32. A store holding both answers that token with the id of
    whichever entry is visited first, and no store authenticates the token of
    the first as 1 and the token of the second as 2. -/
theorem token_collision :
    adler32.Sum32 (bytes "1:cba:x") = adler32.Sum32 (bytes "2:abb:x") ∧
    (Login ⟨[(1, ⟨1, "cba", "cba@me.com", "x"⟩), (2, ⟨2, "abb", "abb@me.com", "x"⟩)]⟩
        ⟨"cba", "x"⟩).1 =
      (Login ⟨[(1, ⟨1, "cba", "cba@me.com", "x"⟩), (2, ⟨2, "abb", "abb@me.com", "x"⟩)]⟩
        ⟨"abb", "x"⟩).1 ∧
    Login ⟨[(1, ⟨1, "cba", "cba@me.com", "x"⟩), (2, ⟨2, "abb", "abb@me.com", "x"⟩)]⟩
      ⟨"abb", "x"⟩ = (toString (adler32.Sum32 (bytes "2:abb:x")), none) ∧
    Authenticate ⟨[(1, ⟨1, "cba", "cba@me.com", "x"⟩), (2, ⟨2, "abb", "abb@me.com", "x"⟩)]⟩
      (toString (adler32.Sum32 (bytes "2:abb:x"))) = (1, none) ∧
    Authenticate ⟨[(2, ⟨2, "abb", "abb@me.com", "x"⟩), (1, ⟨1, "cba", "cba@me.com", "x"⟩)]⟩
      (toString (adler32.Sum32 (bytes "1:cba:x"))) = (2, none) ∧
    ∀ a : inMemoryAuth,
      ¬ (Authenticate a (toString (adler32.Sum32 (bytes "1:cba:x"))) = (1, none) ∧
        Authenticate a (toString (adler32.Sum32 (bytes "2:abb:x"))) = (2, none)) := by
  have hsum : adler32.Sum32 (bytes "1:cba:x") = adler32.Sum32 (bytes "2:abb:x") := by decide
  refine ⟨hsum, by decide, by decide, by decide, by decide, ?_⟩
  intro a ⟨h1, h2⟩
  rw [hsum, h2] at h1
  simp at h1

/-! ## The exact acceptance condition -/

/-- Reading further digits never lowers the value. -/
theorem foldl_digits_ge (cs : List Char) : ∀ n : Nat,
    n ≤ cs.foldl (fun n c => n * 10 + (c.toNat - '0'.toNat)) n := by
  induction cs with
  | nil => intro n; exact Nat.le_refl n
  | cons c cs ih =>
    intro n
    rw [List.foldl_cons]
    exact Nat.le_trans (by omega) (ih _)

/-- The parsing loop succeeds exactly on digits whose value, continued from
    `n`, fits in 32 bits, and then returns that value. -/
theorem parseLoop_iff (cs : List Char) : ∀ n t : Nat, n ≤ 4294967295 →
    (strconv.parseLoop cs n = (t, none) ↔
      (∀ c ∈ cs, '0' ≤ c ∧ c ≤ '9') ∧
        cs.foldl (fun n c => n * 10 + (c.toNat - '0'.toNat)) n = t ∧ t ≤ 4294967295) := by
  induction cs with
  | nil =>
    intro n t hn
    simp only [strconv.parseLoop, Prod.mk.injEq, and_true, List.not_mem_nil, false_implies,
      implies_true, List.foldl_nil, true_and]
    constructor
    · intro h; exact ⟨h, by omega⟩
    · intro h; exact h.1
  | cons c cs ih =>
    intro n t hn
    constructor
    · intro h
      obtain ⟨hc, hle, hrest⟩ := parseLoop_cons_ok c cs n t h
      obtain ⟨hall, hv, ht⟩ := (ih _ t hle).mp hrest
      refine ⟨?_, by rw [List.foldl_cons]; exact hv, ht⟩
      intro x hx
      rcases List.mem_cons.mp hx with rfl | hx
      · exact hc
      · exact hall x hx
    · intro ⟨hall, hv, ht⟩
      have hc := hall c (List.mem_cons_self _ _)
      rw [List.foldl_cons] at hv
      have hge := foldl_digits_ge cs (n * 10 + (c.toNat - '0'.toNat))
      rw [hv] at hge
      have c1 : ¬ (n ≥ 1844674407370955162) := by omega
      have c2 : ¬ (n * 10 + (c.toNat - '0'.toNat) > 4294967295) := by omega
      rw [strconv.parseLoop, if_pos hc, if_neg c1, if_neg c2]
      exact (ih _ t (by omega)).mpr
        ⟨fun x hx => hall x (List.mem_cons_of_mem _ hx), hv, ht⟩

/-- The call `ParseUint(s, 10, 32)` succeeds exactly on the decimal strings
    whose value is below `2^32`, and returns the value. -/
theorem ParseUint_iff (s : String) (t : Nat) :
    strconv.ParseUint s = (t, none) ↔
      Spec.isDecimal s ∧ Spec.decimalValue s = t ∧ t < 2 ^ 32 := by
  have hempty : s = "" ↔ s.data = [] := by
    constructor
    · intro h; rw [h]
    · intro h; apply String.ext; rw [h]
  unfold strconv.ParseUint Spec.isDecimal Spec.decimalValue
  by_cases hs : s = ""
  · rw [if_pos hs]
    constructor
    · intro h; simp at h
    · intro h; exact absurd (hempty.mp hs) h.1.1
  · rw [if_neg hs, parseLoop_iff s.data 0 t (by decide)]
    have hd : s.data ≠ [] := fun h => hs (hempty.mpr h)
    constructor
    · intro ⟨hall, hv, ht⟩
      exact ⟨⟨hd, hall⟩, hv, by omega⟩
    · intro ⟨⟨_, hall⟩, hv, ht⟩
      exact ⟨hall, hv, by omega⟩

/-- A failing `Authenticate` returns exactly `(0, ErrInvalidCredentials)`. -/
theorem Authenticate_error (a : inMemoryAuth) (s : String)
    (h : (Authenticate a s).2 ≠ none) :
    Authenticate a s = (0, some ErrInvalidCredentials) := by
  unfold Authenticate at h ⊢
  split
  · rename_i t hp
    rw [hp] at h
    rcases authLoop_cases t a.users with h1 | ⟨e, _, _, h2⟩
    · exact h1
    · simp only [h2] at h
      exact absurd rfl h
  · rfl

/-- C13. The exact acceptance condition of `Authenticate`: it succeeds if and
    only if the token is a non-empty string of ASCII decimal digits whose
    value is below `2^32` and equals the Adler-32 checksum of
    `"<id>:<username>:<password>"` for at least one stored user. Every other
    token gets `(0, ErrInvalidCredentials)`; in particular a value of `2^32`
    or more is rejected, whatever it would be after truncation to 32 bits. -/
theorem authenticate_accepts_iff (a : inMemoryAuth) (s : String) :
    ((Authenticate a s).2 = none ↔
      Spec.isDecimal s ∧ Spec.decimalValue s < 2 ^ 32 ∧
        ∃ e ∈ a.users, Spec.decimalValue s =
          adler32.Sum32 (bytes (toString e.1 ++ ":" ++ e.2.Username ++ ":" ++ e.2.password))) ∧
    ((Authenticate a s).2 ≠ none → Authenticate a s = (0, some ErrInvalidCredentials)) ∧
    (2 ^ 32 ≤ Spec.decimalValue s → Authenticate a s = (0, some ErrInvalidCredentials)) := by
  have hiff : (Authenticate a s).2 = none ↔
      Spec.isDecimal s ∧ Spec.decimalValue s < 2 ^ 32 ∧
        ∃ e ∈ a.users, Spec.decimalValue s = userSum e.1 e.2 := by
    constructor
    · intro h
      unfold Authenticate at h
      split at h
      · rename_i t hp
        obtain ⟨hdec, hv, ht⟩ := (ParseUint_iff s t).mp hp
        rcases authLoop_cases t a.users with h1 | ⟨e, he, h1, _⟩
        · rw [h1] at h
          simp at h
        · rw [Nat.mod_eq_of_lt ht] at h1
          exact ⟨hdec, by rw [hv]; exact ht, e, he, by rw [hv]; exact h1⟩
      · simp at h
    · intro ⟨hdec, hlt, e, he, hv⟩
      have hp : strconv.ParseUint s = (Spec.decimalValue s, none) :=
        (ParseUint_iff s _).mpr ⟨hdec, rfl, hlt⟩
      unfold Authenticate
      rw [hp]
      show (authLoop (Spec.decimalValue s) a.users).2 = none
      rcases authLoop_cases (Spec.decimalValue s) a.users with h1 | ⟨e2, _, _, h2⟩
      · exact absurd (by rw [Nat.mod_eq_of_lt hlt]; exact hv)
          (authLoop_error _ _ _ _ h1 e he)
      · rw [h2]
  refine ⟨hiff, Authenticate_error a s, ?_⟩
  intro hbig
  apply Authenticate_error
  intro hnone
  have := (hiff.mp hnone).2.1
  omega

/-- The token of `carlos` plus `2^32` would equal it after truncation to 32
    bits; it is rejected. -/
theorem Authenticate_no_truncation :
    564724777 + 2 ^ 32 = 4859692073 ∧
    Authenticate startup "4859692073" = (0, some ErrInvalidCredentials) := by
  decide

end Auth
